import Mathlib

/-!
Verification development for the DevWell assistant chat widget
(`src/static/js/assistant_chat.js`).

The widget is shallowly embedded:
* `formatText` is the text-to-HTML routine, built from three character
  scanners that implement the three JavaScript `String.replace` calls
  (`/\n?\* (.+)/g`, `/(Answer:|Response:)/g`, `/\n{2,}/g`) with the
  left-to-right, non-overlapping, greedy semantics of a global regex
  replace, followed by the `<ul>` wrap guarded by `includes('<li>')`.
* The toggle/close interaction state is a step function over a small
  state record (`WidgetState`), mirroring the two click handlers.
* The submit handler is embedded as a function from the page state, the
  raw input string and the outcome of the chat exchange to the ordered
  trace of observable events (messages appended, input cleared, network
  requests issued).
-/

namespace DevWell

/-- The character class of the JavaScript `.` without the `s` flag: any
character except the line terminators LF, CR, U+2028, U+2029. -/
def dotChar (c : Char) : Bool :=
  !(c = '\n' || c = '\r' || c.toNat = 0x2028 || c.toNat = 0x2029)

/-- Scanner mode for the list-item replace: either scanning normally or
inside the greedy capture group `(.+)` of an open `<li>`. -/
inductive LiMode
  | norm
  | inCap
deriving DecidableEq, Repr

/-- The string of the opening tag of a produced list item. -/
def liOpen : List Char := '<' :: 'l' :: 'i' :: '>' :: []

/-- The string of the closing tag of a produced list item. -/
def liClose : List Char := '<' :: '/' :: 'l' :: 'i' :: '>' :: []

/-- The first replace of `formatText`:
`text.replace(/\n?\* (.+)/g, '<li>$1</li>')`.

A match is an optional `'\n'`, then `"* "`, then a nonempty greedy run
of `.`-characters (the capture).  The scanner walks the string left to
right; in `inCap` mode it is inside the capture of an open `<li>`, which
ends at the first non-`.` character (or the end of input), after which
scanning resumes at that character. -/
def liA : LiMode → List Char → List Char
  | .norm, [] => []
  | .inCap, [] => liClose
  | .norm, '\n' :: '*' :: ' ' :: d :: rest =>
    if dotChar d then liOpen ++ d :: liA .inCap rest
    else '\n' :: '*' :: ' ' :: liA .norm (d :: rest)
  | .norm, '*' :: ' ' :: d :: rest =>
    if dotChar d then liOpen ++ d :: liA .inCap rest
    else '*' :: ' ' :: liA .norm (d :: rest)
  | .norm, c :: cs => c :: liA .norm cs
  | .inCap, '\n' :: '*' :: ' ' :: d :: rest =>
    if dotChar d then liClose ++ liOpen ++ d :: liA .inCap rest
    else liClose ++ '\n' :: '*' :: ' ' :: liA .norm (d :: rest)
  | .inCap, c :: cs =>
    if dotChar c then c :: liA .inCap cs
    else liClose ++ c :: liA .norm cs

/-- The second replace of `formatText`:
`.replace(/(Answer:|Response:)/g, '<strong>$1</strong>')`. -/
def emphA : List Char → List Char
  | 'A' :: 'n' :: 's' :: 'w' :: 'e' :: 'r' :: ':' :: rest =>
    "<strong>Answer:</strong>".data ++ emphA rest
  | 'R' :: 'e' :: 's' :: 'p' :: 'o' :: 'n' :: 's' :: 'e' :: ':' :: rest =>
    "<strong>Response:</strong>".data ++ emphA rest
  | c :: cs => c :: emphA cs
  | [] => []

/-- The replacement string of the third replace: `'</ul><br><ul>'`. -/
def brTag : List Char := "</ul><br><ul>".data

/-- Flush a pending run of `n` newlines: a run of two or more is
replaced by `brTag`, a shorter run is kept verbatim. -/
def flushNl (n : Nat) : List Char :=
  if 2 ≤ n then brTag else List.replicate n '\n'

/-- The third replace of `formatText`:
`.replace(/\n{2,}/g, '</ul><br><ul>')`, greedy, so each maximal run of
two or more consecutive `'\n'` is replaced.  The accumulator `n` counts
the newlines of the run currently being read. -/
def rbA : Nat → List Char → List Char
  | n, [] => flushNl n
  | n, c :: cs => if c = '\n' then rbA (n + 1) cs else flushNl n ++ c :: rbA 0 cs

/-- The wrap guard `html.includes('<li>')`. -/
def hasLiTag : List Char → Bool
  | '<' :: 'l' :: 'i' :: '>' :: _ => true
  | _ :: cs => hasLiTag cs
  | [] => false

/-- `formatText` from `assistant_chat.js`: the three replaces in source
order, then the wrap `html = '<ul>' + html + '</ul>'` performed exactly
when the intermediate result contains `'<li>'`. -/
def formatText (text : String) : String :=
  let html : List Char := rbA 0 (emphA (liA .norm text.data))
  if hasLiTag html then ⟨"<ul>".data ++ html ++ "</ul>".data⟩ else ⟨html⟩

/-! ### Widget open/close state and the lazy reindex trigger -/

/-- The mutable client state the two click handlers touch: whether
`chatBox` carries the CSS class `open`, the `reindexed` flag, and (for
specification purposes) how many times `triggerReindex` has been
invoked. -/
structure WidgetState where
  isOpen : Bool
  reindexed : Bool
  reindexCount : Nat
deriving DecidableEq, Repr

/-- State at page load: panel closed, `let reindexed = false`, no
reindex request issued yet. -/
def initState : WidgetState := ⟨false, false, 0⟩

/-- The two gestures handled by the toggle button and the close
button. -/
inductive WEvent
  | toggle
  | close
deriving DecidableEq, Repr

/-- One step of the widget: the toggle handler computes
`opened = classList.toggle('open')` and, when `opened && !reindexed`,
sets the flag and fires `triggerReindex()`; the close handler runs
`classList.remove('open')`. -/
def step (s : WidgetState) : WEvent → WidgetState
  | .toggle =>
    let opened := !s.isOpen
    if opened && !s.reindexed then ⟨opened, true, s.reindexCount + 1⟩
    else ⟨opened, s.reindexed, s.reindexCount⟩
  | .close => ⟨false, s.reindexed, s.reindexCount⟩

/-- The widget state after a sequence of gestures in one page
lifetime. -/
def runEvents (evs : List WEvent) : WidgetState := evs.foldl step initState

/-! ### Page state, CSRF, messages, and the submit handler -/

/-- The piece of the page the network code reads: the `content`
attribute of `meta[name="csrf-token"]`, or `none` when no such meta tag
exists in the document. -/
structure Dom where
  csrfMeta : Option String
deriving DecidableEq, Repr

/-- Function `getCsrf()`: `meta ? meta.getAttribute('content') : ''`. -/
def getCsrf (dom : Dom) : String :=
  match dom.csrfMeta with
  | some content => content
  | none => ""

/-- Origin of a rendered message (the second argument of
`appendMessage`, used as a CSS class). -/
inductive Origin
  | user
  | bot
deriving DecidableEq, Repr

/-- A rendered message: the text passed to `appendMessage`, the HTML
actually assigned to `msg.innerHTML`, and its origin. -/
structure Msg where
  text : String
  html : String
  origin : Origin
deriving DecidableEq, Repr

/-- Function `appendMessage(text, from)` builds a node whose `innerHTML` is
`formatText(text)`. -/
def appendMessage (text : String) (origin : Origin) : Msg :=
  ⟨text, formatText text, origin⟩

/-- A network request issued by the widget: the reindex POST (with its
`X-CSRFToken` header value) or the chat POST (header value and the
`message` field of the JSON body). -/
inductive NetRequest
  | reindex (csrfHeader : String)
  | chat (csrfHeader : String) (message : String)
deriving DecidableEq, Repr

/-- Function `triggerReindex()`: the fetch is always initiated with the token
from `getCsrf()`; any failure is caught and only logged, so the request
list does not depend on the outcome. -/
def triggerReindexRequests (dom : Dom) : List NetRequest :=
  [.reindex (getCsrf dom)]

/-- Outcome of the chat exchange, as far as the handler can observe it:
the fetch rejects, `res.json()` rejects (non-JSON body), or a JSON
object parsed with an optional string field `answer`. -/
inductive FetchOutcome
  | netError
  | jsonError
  | jsonOk (answer : Option String)
deriving DecidableEq, Repr

/-- Observable events of one run of the submit handler, in program
order. -/
inductive ChatEv
  | appendMsg (m : Msg)
  | clearInput
  | request (r : NetRequest)
deriving DecidableEq, Repr

/-- The whitespace class trimmed by JavaScript `String.prototype.trim`:
WhiteSpace (TAB, VT, FF, SP, NBSP, ZWNBSP and the Zs separators) and
LineTerminator (LF, CR, LS, PS). -/
def jsWhite (c : Char) : Bool :=
  c = ' ' || c = '\t' || c = '\n' || c = '\r' ||
  c.toNat = 0xB || c.toNat = 0xC || c.toNat = 0xA0 || c.toNat = 0xFEFF ||
  c.toNat = 0x1680 || (0x2000 ≤ c.toNat && c.toNat ≤ 0x200A) ||
  c.toNat = 0x2028 || c.toNat = 0x2029 || c.toNat = 0x202F ||
  c.toNat = 0x205F || c.toNat = 0x3000

/-- The trim step `input.value.trim()` of the submit handler. -/
def jsTrim (s : String) : String :=
  ⟨((s.data.dropWhile jsWhite).reverse.dropWhile jsWhite).reverse⟩

/-- The fallback used when `data.answer` is falsy:
`data.answer || 'Sorry, I had trouble answering.'`.  For an optional
string field, `undefined` and `''` are the falsy cases. -/
def answerText : Option String → String
  | some s => if s = "" then "Sorry, I had trouble answering." else s
  | none => "Sorry, I had trouble answering."

/-- One run of the `assistant-form` submit handler, as the ordered list
of its observable events.  The handler trims the input and returns on a
falsy (empty) result; otherwise it appends the user message, clears the
input, and enters the `try` block.  There
`document.querySelector('meta[name="csrf-token"]').getAttribute('content')`
throws when the meta tag is absent (`querySelector` returns `null`), so
in that case no fetch is initiated and the `catch` branch appends the
error fallback.  With the tag present, the chat POST is issued and the
bot message depends on the outcome. -/
def submitTrace (dom : Dom) (raw : String) (o : FetchOutcome) : List ChatEv :=
  if jsTrim raw = "" then []
  else
    ChatEv.appendMsg (appendMessage (jsTrim raw) .user) :: ChatEv.clearInput ::
      match dom.csrfMeta with
      | none => [ChatEv.appendMsg (appendMessage "Error contacting assistant." .bot)]
      | some csrf =>
        ChatEv.request (.chat csrf (jsTrim raw)) ::
          match o with
          | .netError => [ChatEv.appendMsg (appendMessage "Error contacting assistant." .bot)]
          | .jsonError => [ChatEv.appendMsg (appendMessage "Error contacting assistant." .bot)]
          | .jsonOk ans => [ChatEv.appendMsg (appendMessage (answerText ans) .bot)]

/-- The user-origin messages appended during a trace, in order. -/
def userMsgs (t : List ChatEv) : List Msg :=
  t.filterMap fun e =>
    match e with
    | .appendMsg m => if m.origin = .user then some m else none
    | _ => none

/-- The texts of the bot-origin messages appended during a trace, in
order. -/
def botTexts (t : List ChatEv) : List String :=
  t.filterMap fun e =>
    match e with
    | .appendMsg m => if m.origin = .bot then some m.text else none
    | _ => none

/-- The chat requests issued during a trace, in order. -/
def chatRequests (t : List ChatEv) : List NetRequest :=
  t.filterMap fun e =>
    match e with
    | .request r => some r
    | _ => none

/-- Decidable substring occurrence, used to state what a produced HTML
string does or does not contain. -/
def containsSeg (pat : List Char) : List Char → Bool
  | [] => pat.isEmpty
  | c :: cs => pat.isPrefixOf (c :: cs) || containsSeg pat cs

/-- Invariant of the widget state: the reindex request has been issued
at most once, and not at all while the `reindexed` flag is still
false. -/
def ReindexInv (s : WidgetState) : Prop :=
  s.reindexCount ≤ 1 ∧ (s.reindexed = false → s.reindexCount = 0)

/-! ### Helper lemmas -/

theorem step_preserves_inv {s : WidgetState} (e : WEvent) (h : ReindexInv s) :
    ReindexInv (step s e) := by
  obtain ⟨h1, h2⟩ := h
  cases e with
  | toggle =>
    simp only [step]
    by_cases hb : (!s.isOpen && !s.reindexed) = true
    · rw [if_pos hb]
      have hr : s.reindexed = false := by
        cases hR : s.reindexed
        · rfl
        · rw [hR] at hb
          simp at hb
      have h0 := h2 hr
      constructor
      · show s.reindexCount + 1 ≤ 1
        omega
      · intro hfalse
        exact absurd hfalse (by simp)
    · rw [if_neg hb]
      exact ⟨h1, h2⟩
  | close => exact ⟨h1, h2⟩

theorem foldl_preserves_inv :
    ∀ (evs : List WEvent) (s : WidgetState), ReindexInv s → ReindexInv (evs.foldl step s)
  | [], _, h => h
  | e :: evs, s, h => foldl_preserves_inv evs (step s e) (step_preserves_inv e h)

theorem rbA_nl (k : Nat) (cs : List Char) : rbA k ('\n' :: cs) = rbA (k + 1) cs := by
  simp [rbA]

theorem rbA_cons_ne {c : Char} (hc : c ≠ '\n') (k : Nat) (cs : List Char) :
    rbA k (c :: cs) = flushNl k ++ c :: rbA 0 cs := by
  simp [rbA, hc]

theorem rbA_replicate (b : List Char) :
    ∀ (m k : Nat), rbA k (List.replicate m '\n' ++ b) = rbA (k + m) b
  | 0, k => by simp
  | m + 1, k => by
    rw [List.replicate_succ, List.cons_append, rbA_nl, rbA_replicate b m (k + 1)]
    congr 1
    omega

theorem rbA_flush (k : Nat) (b : List Char) (hb : ∀ c, b.head? = some c → c ≠ '\n') :
    rbA k b = flushNl k ++ rbA 0 b := by
  cases b with
  | nil => simp [rbA, flushNl]
  | cons c cs =>
    have hc : c ≠ '\n' := hb c rfl
    rw [rbA_cons_ne hc, rbA_cons_ne hc]
    simp [flushNl]

theorem rbA_run_split (n : Nat) (hn : 2 ≤ n) (b : List Char)
    (hb : ∀ c, b.head? = some c → c ≠ '\n') :
    ∀ (a : List Char) (k : Nat), a.getLast? ≠ some '\n' → (a = [] → k = 0) →
      rbA k (a ++ (List.replicate n '\n' ++ b)) = rbA k a ++ brTag ++ rbA 0 b := by
  intro a
  induction a with
  | nil =>
    intro k _ hk
    have hfl : flushNl n = brTag := if_pos hn
    have hnil : rbA 0 ([] : List Char) = [] := by decide
    rw [hk rfl, List.nil_append, rbA_replicate b n 0, Nat.zero_add,
      rbA_flush n b hb, hfl, hnil, List.nil_append]
  | cons c cs ih =>
    intro k hlast hk
    by_cases hc : c = '\n'
    · subst hc
      obtain ⟨d, ds, rfl⟩ : ∃ d ds, cs = d :: ds := by
        cases cs with
        | nil => simp at hlast
        | cons d ds => exact ⟨d, ds, rfl⟩
      rw [List.cons_append, rbA_nl, rbA_nl]
      exact ih (k + 1) (by rwa [List.getLast?_cons_cons] at hlast) (by simp)
    · have hlast2 : cs.getLast? ≠ some '\n' := by
        cases cs with
        | nil => simp
        | cons d ds => rwa [List.getLast?_cons_cons] at hlast
      rw [List.cons_append, rbA_cons_ne hc, rbA_cons_ne hc,
        ih 0 hlast2 (fun _ => rfl)]
      simp

theorem jsTrim_eq_empty {raw : String} (h : ∀ c ∈ raw.data, jsWhite c = true) :
    jsTrim raw = "" := by
  have h1 : raw.data.dropWhile jsWhite = [] := List.dropWhile_eq_nil_iff.mpr h
  unfold jsTrim
  rw [h1]
  rfl

/-! ### The claims -/

/-- C1: across one page lifetime, `requestReindex` is issued at most
once, however the widget is toggled and closed; in particular the
sequence open, close, open, close, open of the spec issues exactly one
request. -/
theorem c1_reindex_at_most_once :
    (∀ evs : List WEvent, (runEvents evs).reindexCount ≤ 1) ∧
    (runEvents [.toggle, .close, .toggle, .close, .toggle]).reindexCount = 1 := by
  constructor
  · intro evs
    exact (foldl_preserves_inv evs initState ⟨by simp [initState], fun _ => rfl⟩).1
  · decide

/-- C4: `formatText "* a\n* b"` is a single `<ul>` container holding
exactly the two items `a` and `b`. -/
theorem c4_two_bullets_single_list :
    formatText "* a\n* b" = "<ul><li>a</li><li>b</li></ul>" := by decide

/-- C2 fails on the code: two list-item lines separated by one blank
line (a run of exactly two newlines) yield a single list, because the
list-item replace consumes the newline directly before the second item,
leaving only one newline, so the boundary replace `\n{2,}` never fires:
the output contains no `</ul><br><ul>` at all. -/
theorem c2_blank_line_counterexample :
    formatText "* a\n\n* b" = "<ul><li>a</li>\n<li>b</li></ul>" ∧
    containsSeg brTag (formatText "* a\n\n* b").data = false := by decide

/-- C2 (amended): runs of two or more consecutive newlines are replaced
by `</ul><br><ul>` only as they remain after the list-item replace,
which consumes the single newline directly preceding each list item.
Hence the general boundary law holds at the level of the third replace
(`rbA`), two list-item lines separated by one blank line yield a single
list, and a boundary between two separate lists appears only from two
or more blank lines (three or more newlines). -/
theorem c2_amended_list_boundary :
    (∀ (a b : List Char) (n : Nat), 2 ≤ n →
      a.getLast? ≠ some '\n' → (∀ c, b.head? = some c → c ≠ '\n') →
      rbA 0 (a ++ (List.replicate n '\n' ++ b)) = rbA 0 a ++ brTag ++ rbA 0 b) ∧
    formatText "* a\n\n* b" = "<ul><li>a</li>\n<li>b</li></ul>" ∧
    formatText "* a\n\n\n* b" = "<ul><li>a</li></ul><br><ul><li>b</li></ul>" := by
  refine ⟨?_, by decide, by decide⟩
  intro a b n hn hlast hb
  exact rbA_run_split n hn b hb a 0 hlast (fun _ => rfl)

/-- Witness for the amended C2: the boundary law applied to the
concrete split `"x" ++ "\n\n" ++ "y"`. -/
theorem c2_amended_list_boundary_witness :
    rbA 0 ("x".data ++ (List.replicate 2 '\n' ++ "y".data)) =
      rbA 0 "x".data ++ brTag ++ rbA 0 "y".data := by
  have hb : ∀ c, "y".data.head? = some c → c ≠ '\n' := by
    intro c hc
    simp at hc
    subst hc
    decide
  exact c2_amended_list_boundary.1 "x".data "y".data 2 (by decide) (by decide) hb

/-- C3 fails on the code for the chat request: the submit handler reads
the meta tag without the null guard of `getCsrf`, so with the tag
absent the read throws inside the `try`; no chat request is sent (the
claim says it is still sent with an empty header) and the error
fallback is rendered instead. -/
theorem c3_absent_meta_counterexample :
    chatRequests (submitTrace ⟨none⟩ "hi" (.jsonOk (some "ok"))) = [] ∧
    botTexts (submitTrace ⟨none⟩ "hi" (.jsonOk (some "ok"))) =
      ["Error contacting assistant."] := by decide

/-- C3 (amended): both requests read the CSRF token fresh from the page
at each call.  The reindex request goes through `getCsrf`: with the
meta tag absent the token is the empty string and the request is still
sent with an empty header value.  The chat request reads the tag
without a null guard: with the tag present its content is the header of
the one chat request; with the tag absent the handler throws before
fetching, so no chat request is sent and the error fallback message is
rendered instead. -/
theorem c3_amended_csrf_fresh :
    (∀ dom : Dom, triggerReindexRequests dom = [NetRequest.reindex (getCsrf dom)]) ∧
    getCsrf ⟨none⟩ = "" ∧
    (∀ (c raw : String) (o : FetchOutcome), jsTrim raw ≠ "" →
      chatRequests (submitTrace ⟨some c⟩ raw o) = [NetRequest.chat c (jsTrim raw)]) ∧
    (∀ (raw : String) (o : FetchOutcome), jsTrim raw ≠ "" →
      chatRequests (submitTrace ⟨none⟩ raw o) = [] ∧
      botTexts (submitTrace ⟨none⟩ raw o) = ["Error contacting assistant."]) := by
  refine ⟨fun _ => rfl, rfl, ?_, ?_⟩
  · intro c raw o h
    rw [submitTrace.eq_def, if_neg h]
    cases o <;> rfl
  · intro raw o h
    rw [submitTrace.eq_def, if_neg h]
    exact ⟨rfl, rfl⟩

/-- Witness for the amended C3: a present token is sent on the chat
request; an absent meta tag yields no chat request. -/
theorem c3_amended_csrf_fresh_witness :
    chatRequests (submitTrace ⟨some "tok"⟩ "hi" .netError) =
      [NetRequest.chat "tok" (jsTrim "hi")] ∧
    chatRequests (submitTrace ⟨none⟩ "hi" .netError) = [] :=
  ⟨c3_amended_csrf_fresh.2.2.1 "tok" "hi" .netError (by decide),
   (c3_amended_csrf_fresh.2.2.2 "hi" .netError (by decide)).1⟩

/-- C5: submitting an input consisting only of whitespace (or nothing)
is a no-op: no message is appended and no network request is sent,
whatever the page state and the would-be outcome. -/
theorem c5_whitespace_submit_noop (dom : Dom) (raw : String) (o : FetchOutcome)
    (h : ∀ c ∈ raw.data, jsWhite c = true) :
    submitTrace dom raw o = [] := by
  rw [submitTrace.eq_def, if_pos (jsTrim_eq_empty h)]

/-- Witness for C5 at the concrete all-whitespace input. -/
theorem c5_whitespace_submit_noop_witness :
    submitTrace ⟨some "tok"⟩ "  \n  " .netError = [] :=
  c5_whitespace_submit_noop ⟨some "tok"⟩ "  \n  " .netError (by decide)

/-- C6: for every non-empty trimmed input, exactly one user-origin
message is appended, and it is the very first event of the submission
trace, hence before the chat request is issued and before anything that
depends on its completion. -/
theorem c6_user_message_appended_first (dom : Dom) (raw : String) (o : FetchOutcome)
    (h : jsTrim raw ≠ "") :
    userMsgs (submitTrace dom raw o) = [appendMessage (jsTrim raw) Origin.user] ∧
    ∃ rest, submitTrace dom raw o =
      ChatEv.appendMsg (appendMessage (jsTrim raw) Origin.user) :: rest := by
  obtain ⟨meta⟩ := dom
  constructor
  · rw [submitTrace.eq_def, if_neg h]
    cases meta with
    | none => rfl
    | some c => cases o <;> rfl
  · rw [submitTrace.eq_def, if_neg h]
    cases meta with
    | none => exact ⟨_, rfl⟩
    | some c => cases o <;> exact ⟨_, rfl⟩

/-- Witness for C6 at a concrete input. -/
theorem c6_user_message_appended_first_witness :
    userMsgs (submitTrace ⟨some "tok"⟩ "hello" .netError) =
      [appendMessage (jsTrim "hello") Origin.user] :=
  (c6_user_message_appended_first ⟨some "tok"⟩ "hello" .netError (by decide)).1

/-- C7: when the chat response parses but has no `answer` field, the
bot-origin message of the exchange is the literal fallback. -/
theorem c7_absent_answer_fallback (c raw : String) (h : jsTrim raw ≠ "") :
    botTexts (submitTrace ⟨some c⟩ raw (.jsonOk none)) =
      ["Sorry, I had trouble answering."] := by
  rw [submitTrace.eq_def, if_neg h]
  rfl

/-- Witness for C7 at a concrete input. -/
theorem c7_absent_answer_fallback_witness :
    botTexts (submitTrace ⟨some "tok"⟩ "hello" (.jsonOk none)) =
      ["Sorry, I had trouble answering."] :=
  c7_absent_answer_fallback "tok" "hello" (by decide)

/-- C8: when the chat exchange fails (the fetch rejects or the body is
not JSON), exactly one bot-origin message is rendered, with the literal
error fallback, and exactly one chat request was issued (no retry). -/
theorem c8_failed_exchange_fallback (c raw : String) (o : FetchOutcome)
    (h : jsTrim raw ≠ "")
    (ho : o = FetchOutcome.netError ∨ o = FetchOutcome.jsonError) :
    botTexts (submitTrace ⟨some c⟩ raw o) = ["Error contacting assistant."] ∧
    chatRequests (submitTrace ⟨some c⟩ raw o) = [NetRequest.chat c (jsTrim raw)] := by
  rcases ho with rfl | rfl <;> rw [submitTrace.eq_def, if_neg h] <;> exact ⟨rfl, rfl⟩

/-- Witness for C8 at a concrete failed exchange. -/
theorem c8_failed_exchange_fallback_witness :
    botTexts (submitTrace ⟨some "tok"⟩ "hello" .netError) =
      ["Error contacting assistant."] :=
  (c8_failed_exchange_fallback "tok" "hello" .netError (by decide) (Or.inl rfl)).1

/-- C9: a present but falsy `answer` (the empty string) renders the
same fallback as an absent field: `data.answer || fallback` does not
distinguish the two. -/
theorem c9_falsy_answer_fallback (c raw : String) (h : jsTrim raw ≠ "") :
    botTexts (submitTrace ⟨some c⟩ raw (.jsonOk (some ""))) =
      ["Sorry, I had trouble answering."] ∧
    botTexts (submitTrace ⟨some c⟩ raw (.jsonOk none)) =
      ["Sorry, I had trouble answering."] := by
  constructor <;> (rw [submitTrace.eq_def, if_neg h]; rfl)

/-- Witness for C9 at a concrete input with an empty `answer`. -/
theorem c9_falsy_answer_fallback_witness :
    botTexts (submitTrace ⟨some "tok"⟩ "hello" (.jsonOk (some ""))) =
      ["Sorry, I had trouble answering."] :=
  (c9_falsy_answer_fallback "tok" "hello" (by decide)).1

/-- C10: the user-origin message goes through `formatText` and is
assigned as raw HTML exactly like bot messages: the rendered user
message for input `raw` is `formatText (raw.trim())`, so user text that
starts with a bullet or contains `Answer:`/`Response:` is rendered
transformed, not verbatim. -/
theorem c10_user_message_formatted :
    (∀ (dom : Dom) (raw : String) (o : FetchOutcome), jsTrim raw ≠ "" →
      ∃ rest, submitTrace dom raw o =
        ChatEv.appendMsg ⟨jsTrim raw, formatText (jsTrim raw), Origin.user⟩ :: rest) ∧
    (∀ (t : String) (o : Origin), (appendMessage t o).html = formatText t) ∧
    formatText "* hello" = "<ul><li>hello</li></ul>" ∧
    formatText "Answer: yes" = "<strong>Answer:</strong> yes" ∧
    formatText "Response: ok" = "<strong>Response:</strong> ok" ∧
    formatText "* hello" ≠ "* hello" ∧
    formatText "Answer: yes" ≠ "Answer: yes" := by
  refine ⟨?_, fun _ _ => rfl, by decide, by decide, by decide, by decide, by decide⟩
  intro dom raw o h
  obtain ⟨meta⟩ := dom
  rw [submitTrace.eq_def, if_neg h]
  cases meta with
  | none => exact ⟨_, rfl⟩
  | some c => cases o <;> exact ⟨_, rfl⟩

/-- Witness for C10 at a concrete bullet input. -/
theorem c10_user_message_formatted_witness :
    ∃ rest, submitTrace ⟨some "tok"⟩ "* hello" .netError =
      ChatEv.appendMsg ⟨jsTrim "* hello", formatText (jsTrim "* hello"),
        Origin.user⟩ :: rest :=
  c10_user_message_formatted.1 ⟨some "tok"⟩ "* hello" .netError (by decide)

end DevWell
